import Mathlib

/-!
Shallow embedding of the WebSocket traffic-light detection server
(`Python Server/server.py`): truncation of model box coordinates, the
per-frame detection parsing, the JSON wire message, and the per-connection
handler loop with its decode-failure, inference-error and
connection-reset behaviour.
-/

namespace TrafficLightServer

/-- Python `int()` applied to a (possibly fractional) numeric value:
truncation toward zero. -/
def truncQ (q : ℚ) : ℤ := if 0 ≤ q then ⌊q⌋ else ⌈q⌉

/-- One raw box of a YOLO result: two opposite corner points `(x1, y1)`,
`(x2, y2)` and the class tensor value `cls`, all numeric (possibly
fractional) as reported by the model (`box.xyxy[0]`, `box.cls[0]`). -/
structure RawBox where
  x1 : ℚ
  y1 : ℚ
  x2 : ℚ
  y2 : ℚ
  cls : ℚ
deriving DecidableEq

/-- One element `r` of the list returned by `model(frame)`: a list of
boxes and the class-index table `r.names` mapping class index to name. -/
structure YoloResult where
  boxes : List RawBox
  names : ℤ → String

/-- One record appended to the `detections` list:
`{"box": [x1, y1, w, h], "color": label}`. -/
structure Detection where
  box : List ℤ
  color : String
deriving DecidableEq

/-- The parsing loop of `handle_connection`: for every result `r` and every
box in `r.boxes`, take `x1, y1, x2, y2 = map(int, box.xyxy[0])`,
`w = x2 - x1`, `h = y2 - y1`, `cls = int(box.cls[0])`,
`label = r.names[cls]`, and append `{"box": [x1, y1, w, h], "color": label}`. -/
def parseDetections (results : List YoloResult) : List Detection :=
  results.flatMap fun r =>
    r.boxes.map fun box =>
      let x1 := truncQ box.x1
      let y1 := truncQ box.y1
      let x2 := truncQ box.x2
      let y2 := truncQ box.y2
      let w := x2 - x1
      let h := y2 - y1
      let cls := truncQ box.cls
      { box := [x1, y1, w, h], color := r.names cls }

/-- Structured text values as produced by `json.dumps`. -/
inductive Json where
  | str : String → Json
  | int : ℤ → Json
  | arr : List Json → Json
  | obj : List (String × Json) → Json

/-- Serialization of one detection record. -/
def detectionJson (d : Detection) : Json :=
  Json.obj [("box", Json.arr (d.box.map Json.int)), ("color", Json.str d.color)]

/-- The outbound message `json.dumps({"detections": detections})`. -/
def mkOutMsg (ds : List Detection) : Json :=
  Json.obj [("detections", Json.arr (ds.map detectionJson))]

/-- An inbound frame: the raw byte buffer of one websocket message. -/
abbrev Frame := List ℕ

/-- Observable events of one connection task, in order: the prints and
the websocket sends of `handle_connection`. -/
inductive Event where
  | logConnected : Event
  | logRecv : ℕ → Event
  | logDecodeFail : Event
  | sent : Json → Event
  | logDisconnect : Event

/-- How the inbound message stream of the connection ends: the client
closes normally, or the transport raises a connection-reset
(`ConnectionClosedError`) while the handler awaits the next message. -/
inductive StreamEnd where
  | normal : StreamEnd
  | reset : StreamEnd
deriving DecidableEq

/-- Exceptions that can escape the `async for` body: the transport's
`ConnectionClosedError`, or an error of type `ε` raised by the inference
step `model(frame)`. -/
inductive Exc (ε : Type) where
  | connClosed : Exc ε
  | inferErr : ε → Exc ε

/-- The `try` block of `handle_connection`: iterate over inbound frames;
log the received size; decode (`cv2.imdecode`, `None` on failure) — on
failure log and `continue`; otherwise run inference and send the
serialized result. Returns the events emitted and the exception, if any,
escaping the loop (`connClosed` when the stream ends by reset,
`inferErr` when the model raises). -/
def tryBlock {Image ε : Type} (decode : Frame → Option Image)
    (infer : Image → Except ε (List YoloResult)) :
    List Frame → StreamEnd → List Event × Option (Exc ε)
  | [], .normal => ([], none)
  | [], .reset => ([], some Exc.connClosed)
  | f :: fs, ending =>
    match decode f with
    | none =>
      let rest := tryBlock decode infer fs ending
      (Event.logRecv f.length :: Event.logDecodeFail :: rest.1, rest.2)
    | some img =>
      match infer img with
      | .error e => ([Event.logRecv f.length], some (Exc.inferErr e))
      | .ok results =>
        let rest := tryBlock decode infer fs ending
        (Event.logRecv f.length :: Event.sent (mkOutMsg (parseDetections results)) :: rest.1,
         rest.2)

/-- The whole `handle_connection` coroutine: print the connected notice,
run the `try` block, and catch exactly `ConnectionClosedError` (printing
the disconnect notice). Any other exception — in particular one raised
by inference — propagates out of the per-connection task: it is returned
as `some e` in the second component. -/
def handle_connection {Image ε : Type} (decode : Frame → Option Image)
    (infer : Image → Except ε (List YoloResult))
    (frames : List Frame) (ending : StreamEnd) : List Event × Option ε :=
  match tryBlock decode infer frames ending with
  | (evs, none) => (Event.logConnected :: evs, none)
  | (evs, some Exc.connClosed) =>
      (Event.logConnected :: (evs ++ [Event.logDisconnect]), none)
  | (evs, some (Exc.inferErr e)) => (Event.logConnected :: evs, some e)

/-- The messages sent on the websocket, extracted in order from the
event trace. -/
def sentMsgs (evs : List Event) : List Json :=
  evs.filterMap fun e =>
    match e with
    | .sent m => some m
    | _ => none

/-- The response the handler produces for one frame when inference does
not raise: `none` when decode fails, otherwise the serialized detection
result for the decoded image. -/
def responseFor {Image : Type} (decode : Frame → Option Image)
    (model : Image → List YoloResult) (f : Frame) : Option Json :=
  (decode f).map fun img => mkOutMsg (parseDetections (model img))

/-- A non-raising inference step wrapping a pure model function. -/
def okInfer {Image ε : Type} (model : Image → List YoloResult) :
    Image → Except ε (List YoloResult) :=
  fun img => Except.ok (model img)

/-! ### Helper lemmas -/

/-- On nonnegative arguments, truncation toward zero is the floor. -/
theorem truncQ_of_nonneg {q : ℚ} (h : 0 ≤ q) : truncQ q = ⌊q⌋ := if_pos h

/-- On negative arguments, truncation toward zero is the ceiling. -/
theorem truncQ_of_neg {q : ℚ} (h : q < 0) : truncQ q = ⌈q⌉ := if_neg (not_le.mpr h)

/-- Truncation fixes the integers. -/
theorem truncQ_intCast (n : ℤ) : truncQ (n : ℚ) = n := by
  unfold truncQ
  split
  · exact Int.floor_intCast n
  · exact Int.ceil_intCast n

/-- Truncation toward zero is monotone. -/
theorem truncQ_mono {p q : ℚ} (h : p ≤ q) : truncQ p ≤ truncQ q := by
  unfold truncQ
  split <;> split
  · exact Int.floor_le_floor h
  · rename_i hp hq
    exact absurd (hp.trans h) hq
  · rename_i hp hq
    have h1 : (⌈p⌉ : ℤ) ≤ 0 := by
      rw [Int.ceil_le]
      exact_mod_cast le_of_not_le hp
    have h2 : (0 : ℤ) ≤ ⌊q⌋ := Int.floor_nonneg.mpr hq
    exact h1.trans h2
  · exact Int.ceil_le_ceil h

/-- Truncation of a nonnegative value is nonnegative. -/
theorem truncQ_nonneg {q : ℚ} (h : 0 ≤ q) : 0 ≤ truncQ q := by
  have := truncQ_mono h
  rwa [show truncQ 0 = 0 from truncQ_intCast 0] at this

/-- Truncation of a value at most an integer `n` is at most `n`. -/
theorem truncQ_le_intCast {q : ℚ} {n : ℤ} (h : q ≤ (n : ℚ)) : truncQ q ≤ n := by
  have := truncQ_mono h
  rwa [truncQ_intCast n] at this

/-- Membership characterization of `parseDetections`: the detections are
exactly the records built from some box of some result. -/
theorem mem_parseDetections {results : List YoloResult} {d : Detection} :
    d ∈ parseDetections results ↔
      ∃ r ∈ results, ∃ b ∈ r.boxes,
        d = ⟨[truncQ b.x1, truncQ b.y1, truncQ b.x2 - truncQ b.x1,
              truncQ b.y2 - truncQ b.y1], r.names (truncQ b.cls)⟩ := by
  simp only [parseDetections, List.mem_flatMap, List.mem_map]
  constructor
  · rintro ⟨r, hr, b, hb, rfl⟩
    exact ⟨r, hr, b, hb, rfl⟩
  · rintro ⟨r, hr, b, hb, rfl⟩
    exact ⟨r, hr, b, hb, rfl⟩

/-- The sends of the whole handler are the sends of its `try` block: the
surrounding prints add no `sent` event. -/
theorem sentMsgs_handle_connection {Image ε : Type} (decode : Frame → Option Image)
    (infer : Image → Except ε (List YoloResult)) (frames : List Frame)
    (ending : StreamEnd) :
    sentMsgs (handle_connection decode infer frames ending).1
      = sentMsgs (tryBlock decode infer frames ending).1 := by
  unfold handle_connection
  rcases h : tryBlock decode infer frames ending with ⟨evs, exc⟩
  rcases exc with _ | exc
  · simp [sentMsgs]
  · rcases exc with _ | e <;> simp [sentMsgs, List.filterMap_append]

/-- With a non-raising inference step, the sends of the `try` block are
exactly the per-frame responses, in frame order. -/
theorem sentMsgs_tryBlock {Image ε : Type} (decode : Frame → Option Image)
    (model : Image → List YoloResult) (frames : List Frame) (ending : StreamEnd) :
    sentMsgs (tryBlock decode (okInfer (ε := ε) model) frames ending).1
      = frames.filterMap (responseFor decode model) := by
  induction frames with
  | nil => cases ending <;> rfl
  | cons f fs ih =>
    cases hd : decode f with
    | none => simp [tryBlock, hd, sentMsgs, responseFor, List.filterMap_cons] at ih ⊢; exact ih
    | some img =>
      simp [tryBlock, hd, okInfer, sentMsgs, responseFor, List.filterMap_cons] at ih ⊢
      exact ih

/-- With an inference step that never raises, the `try` block exits with
`connClosed` exactly when the stream ends by reset. -/
theorem tryBlock_exc_of_ok {Image ε : Type} (decode : Frame → Option Image)
    (infer : Image → Except ε (List YoloResult))
    (h : ∀ img, ∃ rs, infer img = Except.ok rs) (frames : List Frame)
    (ending : StreamEnd) :
    (tryBlock decode infer frames ending).2
      = (match ending with
         | StreamEnd.normal => none
         | StreamEnd.reset => some Exc.connClosed) := by
  induction frames with
  | nil => cases ending <;> rfl
  | cons f fs ih =>
    cases hd : decode f with
    | none => simpa [tryBlock, hd] using ih
    | some img =>
      obtain ⟨rs, hrs⟩ := h img
      simpa [tryBlock, hd, hrs] using ih

/-- Every message the `try` block sends is a serialized detection result. -/
theorem mem_sentMsgs_tryBlock {Image ε : Type} {decode : Frame → Option Image}
    {infer : Image → Except ε (List YoloResult)} {frames : List Frame}
    {ending : StreamEnd} {m : Json}
    (hm : m ∈ sentMsgs (tryBlock decode infer frames ending).1) :
    ∃ rs : List YoloResult, m = mkOutMsg (parseDetections rs) := by
  induction frames with
  | nil =>
    cases ending <;> simp [tryBlock, sentMsgs] at hm
  | cons f fs ih =>
    cases hd : decode f with
    | none =>
      rw [tryBlock] at hm
      simp [hd, sentMsgs, List.filterMap_cons] at hm
      exact ih (by simpa [sentMsgs] using hm)
    | some img =>
      rw [tryBlock] at hm
      cases hi : infer img with
      | error e => simp [hd, hi, sentMsgs, List.filterMap_cons] at hm
      | ok rs =>
        simp [hd, hi, sentMsgs, List.filterMap_cons] at hm
        rcases hm with hm | hm
        · exact ⟨rs, hm⟩
        · exact ih (by simpa [sentMsgs] using hm)

/-- Length of a `filterMap` counts the inputs on which the function hits. -/
theorem length_filterMap_eq_countP {α β : Type} (g : α → Option β) (l : List α) :
    (l.filterMap g).length = l.countP (fun a => (g a).isSome) := by
  induction l with
  | nil => rfl
  | cons a l ih =>
    cases h : g a with
    | none => simp [List.filterMap_cons, List.countP_cons, h, ih]
    | some b => simp [List.filterMap_cons, List.countP_cons, h, ih]

/-! ### Claim theorems -/

/-- Claim C1: every detection record produced by the detection adapter has
box `[x, y, w, h]` where `(x, y)` is the truncated top-left corner reported
by the model, `w = x2 - x1` and `h = y2 - y1` are derived from the two
truncated opposite corners, all values integers, and the label is the
lookup of the detection's class index in the result's class-index table. -/
theorem detection_box_and_label (results : List YoloResult) (d : Detection)
    (hd : d ∈ parseDetections results) :
    ∃ r ∈ results, ∃ b ∈ r.boxes,
      d.box = [truncQ b.x1, truncQ b.y1, truncQ b.x2 - truncQ b.x1,
               truncQ b.y2 - truncQ b.y1]
      ∧ d.color = r.names (truncQ b.cls) := by
  obtain ⟨r, hr, b, hb, rfl⟩ := mem_parseDetections.mp hd
  exact ⟨r, hr, b, hb, rfl, rfl⟩

/-- Concrete instance of claim C1 at one fractional box. -/
theorem detection_box_and_label_witness :
    ((⟨[0, 0, 2, 2], "red"⟩ : Detection) ∈
      parseDetections [⟨[⟨mkRat 9 10, mkRat 1 2, mkRat 21 10, mkRat 5 2,
                          mkRat 37 10⟩], fun _ => "red"⟩])
    ∧ ∃ r ∈ [(⟨[⟨mkRat 9 10, mkRat 1 2, mkRat 21 10, mkRat 5 2,
                 mkRat 37 10⟩], fun _ => "red"⟩ : YoloResult)],
        ∃ b ∈ r.boxes,
          (⟨[0, 0, 2, 2], "red"⟩ : Detection).box
            = [truncQ b.x1, truncQ b.y1, truncQ b.x2 - truncQ b.x1,
               truncQ b.y2 - truncQ b.y1]
          ∧ (⟨[0, 0, 2, 2], "red"⟩ : Detection).color = r.names (truncQ b.cls) :=
  ⟨by decide, detection_box_and_label _ _ (by decide)⟩

/-- Claim C2: per connection, exactly one outbound message is sent for
every frame whose decode succeeds — never zero, never two, also when the
detection list is empty. -/
theorem one_response_per_decoded_frame {Image ε : Type} (decode : Frame → Option Image)
    (model : Image → List YoloResult) (frames : List Frame) (ending : StreamEnd) :
    (sentMsgs (handle_connection decode (okInfer (ε := ε) model) frames ending).1).length
      = frames.countP (fun f => (decode f).isSome) := by
  rw [sentMsgs_handle_connection, sentMsgs_tryBlock, length_filterMap_eq_countP]
  congr 1
  funext f
  simp [responseFor]

/-- Claim C3: a frame whose decode fails is logged and skipped: no message
is sent for it, the loop continues with the remaining frames exactly as
before, and the exception status of the connection is unchanged. -/
theorem decode_failure_skipped {Image ε : Type} (decode : Frame → Option Image)
    (infer : Image → Except ε (List YoloResult)) (f : Frame) (fs : List Frame)
    (ending : StreamEnd) (h : decode f = none) :
    tryBlock decode infer (f :: fs) ending
      = (Event.logRecv f.length :: Event.logDecodeFail ::
          (tryBlock decode infer fs ending).1,
         (tryBlock decode infer fs ending).2) := by
  simp [tryBlock, h]

/-- Concrete instance of claim C3 at a zero-length buffer whose decode
fails. -/
theorem decode_failure_skipped_witness :
    ((fun _ : Frame => (none : Option Unit)) [] = none)
    ∧ tryBlock (fun _ : Frame => (none : Option Unit))
        (fun _ : Unit => (Except.ok [] : Except Unit (List YoloResult)))
        [[]] StreamEnd.normal
      = (Event.logRecv (List.length ([] : Frame)) :: Event.logDecodeFail ::
          (tryBlock (fun _ : Frame => (none : Option Unit))
            (fun _ : Unit => (Except.ok [] : Except Unit (List YoloResult)))
            [] StreamEnd.normal).1,
         (tryBlock (fun _ : Frame => (none : Option Unit))
            (fun _ : Unit => (Except.ok [] : Except Unit (List YoloResult)))
            [] StreamEnd.normal).2) :=
  ⟨rfl, decode_failure_skipped _ _ _ _ _ rfl⟩

/-- Claim C6: on one connection, each inbound frame produces at most one
outbound message, and the messages sent are exactly the per-frame
responses in the order of the frames that produced them. -/
theorem responses_in_frame_order {Image ε : Type} (decode : Frame → Option Image)
    (model : Image → List YoloResult) (frames : List Frame) (ending : StreamEnd) :
    sentMsgs (handle_connection decode (okInfer (ε := ε) model) frames ending).1
      = frames.filterMap (responseFor decode model)
    ∧ (sentMsgs (handle_connection decode (okInfer (ε := ε) model) frames ending).1).length
      ≤ frames.length := by
  rw [sentMsgs_handle_connection, sentMsgs_tryBlock]
  exact ⟨rfl, List.length_filterMap_le _ _⟩

/-- Claim C7: frame processing is stateless: submitting the same frame
twice in sequence, after any history, yields the identical response twice,
determined only by the frame bytes, the decoder and the fixed model. -/
theorem repeated_frame_same_result {Image ε : Type} (decode : Frame → Option Image)
    (model : Image → List YoloResult) (history : List Frame) (f : Frame)
    (ending : StreamEnd) :
    sentMsgs (handle_connection decode (okInfer (ε := ε) model)
        (history ++ [f, f]) ending).1
      = sentMsgs (handle_connection decode (okInfer (ε := ε) model) history ending).1
        ++ (match responseFor decode model f with
            | none => []
            | some m => [m, m]) := by
  rw [sentMsgs_handle_connection, sentMsgs_tryBlock,
    sentMsgs_handle_connection, sentMsgs_tryBlock, List.filterMap_append]
  cases h : responseFor decode model f <;> simp [List.filterMap_cons, h]

/-- Claim C4: every outbound message is one object with the single field
`detections`, an ordered list of objects `{ box: [x, y, w, h], color: label }`
where `color` holds the class label looked up in the class-index table. -/
theorem outbound_message_shape {Image ε : Type} (decode : Frame → Option Image)
    (infer : Image → Except ε (List YoloResult)) (frames : List Frame)
    (ending : StreamEnd) (m : Json)
    (hm : m ∈ sentMsgs (handle_connection decode infer frames ending).1) :
    ∃ rs : List YoloResult,
      m = Json.obj [("detections", Json.arr ((parseDetections rs).map detectionJson))]
      ∧ ∀ d ∈ parseDetections rs,
          detectionJson d
            = Json.obj [("box", Json.arr (d.box.map Json.int)),
                        ("color", Json.str d.color)]
          ∧ (∃ x y w h : ℤ, d.box = [x, y, w, h])
          ∧ ∃ r ∈ rs, ∃ b ∈ r.boxes, d.color = r.names (truncQ b.cls) := by
  rw [sentMsgs_handle_connection] at hm
  obtain ⟨rs, rfl⟩ := mem_sentMsgs_tryBlock hm
  refine ⟨rs, rfl, ?_⟩
  intro d hd
  obtain ⟨r, hr, b, hb, rfl⟩ := mem_parseDetections.mp hd
  exact ⟨rfl, ⟨_, _, _, _, rfl⟩, r, hr, b, hb, rfl⟩

/-- Concrete instance of claim C4 on a run with one decoded frame and an
empty detection list. -/
theorem outbound_message_shape_witness :
    (mkOutMsg (parseDetections [])
      ∈ sentMsgs (handle_connection (fun _ : Frame => some ())
          (fun _ : Unit => (Except.ok [] : Except Unit (List YoloResult)))
          [[]] StreamEnd.normal).1)
    ∧ ∃ rs : List YoloResult,
        mkOutMsg (parseDetections [])
          = Json.obj [("detections", Json.arr ((parseDetections rs).map detectionJson))]
        ∧ ∀ d ∈ parseDetections rs,
            detectionJson d
              = Json.obj [("box", Json.arr (d.box.map Json.int)),
                          ("color", Json.str d.color)]
            ∧ (∃ x y w h : ℤ, d.box = [x, y, w, h])
            ∧ ∃ r ∈ rs, ∃ b ∈ r.boxes, d.color = r.names (truncQ b.cls) := by
  have hm : mkOutMsg (parseDetections [])
      ∈ sentMsgs (handle_connection (fun _ : Frame => some ())
          (fun _ : Unit => (Except.ok [] : Except Unit (List YoloResult)))
          [[]] StreamEnd.normal).1 := by
    simp [handle_connection, tryBlock, sentMsgs]
  exact ⟨hm, outbound_message_shape _ _ _ _ _ hm⟩

/-- Claim C5: when every corner point the model reports lies within the
source image's pixel bounds with correctly ordered corners, every parsed
detection has nonnegative width and height and its box lies within the
image bounds. -/
theorem detections_within_bounds (results : List YoloResult) (W H : ℤ)
    (hb : ∀ r ∈ results, ∀ b ∈ r.boxes,
      0 ≤ b.x1 ∧ b.x1 ≤ b.x2 ∧ b.x2 ≤ (W : ℚ)
      ∧ 0 ≤ b.y1 ∧ b.y1 ≤ b.y2 ∧ b.y2 ≤ (H : ℚ))
    (d : Detection) (hd : d ∈ parseDetections results) :
    ∃ x y w h : ℤ, d.box = [x, y, w, h]
      ∧ 0 ≤ w ∧ 0 ≤ h
      ∧ 0 ≤ x ∧ x + w ≤ W ∧ 0 ≤ y ∧ y + h ≤ H := by
  obtain ⟨r, hr, b, hbx, rfl⟩ := mem_parseDetections.mp hd
  obtain ⟨h1, h2, h3, h4, h5, h6⟩ := hb r hr b hbx
  have t1 := truncQ_nonneg h1
  have t2 := truncQ_mono h2
  have t3 := truncQ_le_intCast h3
  have t4 := truncQ_nonneg h4
  have t5 := truncQ_mono h5
  have t6 := truncQ_le_intCast h6
  exact ⟨_, _, _, _, rfl, by omega, by omega, by omega, by omega, by omega, by omega⟩

/-- Concrete instance of claim C5 on a 640 by 480 image with one
in-bounds fractional box. -/
theorem detections_within_bounds_witness :
    (∀ r ∈ [(⟨[⟨mkRat 1 2, mkRat 3 2, mkRat 1201 2, mkRat 479 2, 0⟩],
              fun _ => "green"⟩ : YoloResult)], ∀ b ∈ r.boxes,
      0 ≤ b.x1 ∧ b.x1 ≤ b.x2 ∧ b.x2 ≤ ((640 : ℤ) : ℚ)
      ∧ 0 ≤ b.y1 ∧ b.y1 ≤ b.y2 ∧ b.y2 ≤ ((480 : ℤ) : ℚ))
    ∧ ∃ x y w h : ℤ,
        (⟨[0, 1, 600, 238], "green"⟩ : Detection).box = [x, y, w, h]
        ∧ 0 ≤ w ∧ 0 ≤ h
        ∧ 0 ≤ x ∧ x + w ≤ 640 ∧ 0 ≤ y ∧ y + h ≤ 480 :=
  ⟨by decide,
   detections_within_bounds
     [⟨[⟨mkRat 1 2, mkRat 3 2, mkRat 1201 2, mkRat 479 2, 0⟩], fun _ => "green"⟩]
     640 480 (by decide) ⟨[0, 1, 600, 238], "green"⟩ (by decide)⟩

/-- Claim C8: an error raised by the inference step on a decoded frame is
not caught: the per-connection task stops at that frame, sends nothing for
it, processes no later frame, and the error escapes `handle_connection`. -/
theorem inference_error_propagates {Image ε : Type} (decode : Frame → Option Image)
    (infer : Image → Except ε (List YoloResult)) (f : Frame) (fs : List Frame)
    (ending : StreamEnd) (img : Image) (e : ε)
    (h1 : decode f = some img) (h2 : infer img = Except.error e) :
    handle_connection decode infer (f :: fs) ending
      = ([Event.logConnected, Event.logRecv f.length], some e) := by
  simp [handle_connection, tryBlock, h1, h2]

/-- Concrete instance of claim C8 with an inference step that raises. -/
theorem inference_error_propagates_witness :
    ((fun _ : Frame => some ()) [7] = some ())
    ∧ ((fun _ : Unit => (Except.error 5 : Except ℕ (List YoloResult))) ()
        = Except.error 5)
    ∧ handle_connection (fun _ : Frame => some ())
        (fun _ : Unit => (Except.error 5 : Except ℕ (List YoloResult)))
        [[7]] StreamEnd.normal
      = ([Event.logConnected, Event.logRecv [7].length], some 5) :=
  ⟨rfl, rfl, inference_error_propagates _ _ _ _ _ _ _ rfl rfl⟩

/-- Claim C9: when the stream ends with a transport reset and inference
never raises, the connection task catches the reset at its boundary, logs
the disconnect and returns cleanly with no escaping exception. -/
theorem abrupt_disconnect_clean {Image ε : Type} (decode : Frame → Option Image)
    (infer : Image → Except ε (List YoloResult)) (frames : List Frame)
    (h : ∀ img, ∃ rs, infer img = Except.ok rs) :
    handle_connection decode infer frames StreamEnd.reset
      = (Event.logConnected ::
          ((tryBlock decode infer frames StreamEnd.reset).1 ++ [Event.logDisconnect]),
         none) := by
  have hexc := tryBlock_exc_of_ok decode infer h frames StreamEnd.reset
  unfold handle_connection
  rcases htb : tryBlock decode infer frames StreamEnd.reset with ⟨evs, exc⟩
  rw [htb] at hexc
  simp only at hexc
  subst hexc
  rfl

/-- Concrete instance of claim C9 on a one-frame run ending in a reset. -/
theorem abrupt_disconnect_clean_witness :
    (∀ img : Unit, ∃ rs,
      (fun _ : Unit => (Except.ok [] : Except Unit (List YoloResult))) img
        = Except.ok rs)
    ∧ handle_connection (fun _ : Frame => some ())
        (fun _ : Unit => (Except.ok [] : Except Unit (List YoloResult)))
        [[]] StreamEnd.reset
      = (Event.logConnected ::
          ((tryBlock (fun _ : Frame => some ())
              (fun _ : Unit => (Except.ok [] : Except Unit (List YoloResult)))
              [[]] StreamEnd.reset).1 ++ [Event.logDisconnect]),
         none) :=
  ⟨fun _ => ⟨[], rfl⟩,
   abrupt_disconnect_clean _ _ _ (fun _ => ⟨[], rfl⟩)⟩

/-- Claim C10: the integer box coordinates are the corner values truncated
toward zero (floor for nonnegative, ceiling for negative values, as
Python's `int`), and width and height are differences of the truncated
corners, computed after truncation. -/
theorem truncate_then_subtract (r : YoloResult) (b : RawBox) (hb : b ∈ r.boxes) :
    (∀ q : ℚ, (0 ≤ q → truncQ q = ⌊q⌋) ∧ (q < 0 → truncQ q = ⌈q⌉))
    ∧ ((⟨[truncQ b.x1, truncQ b.y1, truncQ b.x2 - truncQ b.x1,
          truncQ b.y2 - truncQ b.y1], r.names (truncQ b.cls)⟩ : Detection)
        ∈ parseDetections [r]) := by
  refine ⟨fun q => ⟨fun h => truncQ_of_nonneg h, fun h => truncQ_of_neg h⟩, ?_⟩
  exact mem_parseDetections.mpr ⟨r, by simp, b, hb, rfl⟩

/-- Concrete instance of claim C10 at a box with fractional, partly
negative corners: `-3.7` truncates to `-3`, not to `-4`. -/
theorem truncate_then_subtract_witness :
    ((⟨mkRat (-37) 10, mkRat 1 2, mkRat 12 5, mkRat 7 2, 1⟩ : RawBox)
      ∈ (⟨[⟨mkRat (-37) 10, mkRat 1 2, mkRat 12 5, mkRat 7 2, 1⟩],
          fun _ => "yellow"⟩ : YoloResult).boxes)
    ∧ ((∀ q : ℚ, (0 ≤ q → truncQ q = ⌊q⌋) ∧ (q < 0 → truncQ q = ⌈q⌉))
      ∧ ((⟨[truncQ (mkRat (-37) 10), truncQ (mkRat 1 2),
            truncQ (mkRat 12 5) - truncQ (mkRat (-37) 10),
            truncQ (mkRat 7 2) - truncQ (mkRat 1 2)],
           (⟨[⟨mkRat (-37) 10, mkRat 1 2, mkRat 12 5, mkRat 7 2, 1⟩],
             fun _ => "yellow"⟩ : YoloResult).names
             (truncQ (1 : ℚ))⟩ : Detection)
          ∈ parseDetections
              [⟨[⟨mkRat (-37) 10, mkRat 1 2, mkRat 12 5, mkRat 7 2, 1⟩],
                fun _ => "yellow"⟩])) :=
  ⟨by decide,
   truncate_then_subtract
     ⟨[⟨mkRat (-37) 10, mkRat 1 2, mkRat 12 5, mkRat 7 2, 1⟩], fun _ => "yellow"⟩
     ⟨mkRat (-37) 10, mkRat 1 2, mkRat 12 5, mkRat 7 2, 1⟩ (by decide)⟩

end TrafficLightServer
